import Mathlib

/-!
Shallow embedding of the Plex scan target (`src/targets/plex/plex.go`) of
the autoscan fork: the library catalog, the prefix-based library resolver
(`getScanLibrary`), the scan dispatcher (`target.Scan`), the version
compatibility gate (`isSupportedVersion`), the timeout parser
(`parseTimeout`, over a model of Go `time.ParseDuration`), the default
client identifier (`defaultClientIdentifier`, over a model of the host
extraction of Go `net/url.Parse`) and the construction flow (`New`).

Remote calls (`api.Version`, `api.Libraries`, `api.Scan`) and the path
rewriter are external collaborators; they enter the embedding as explicit
oracle arguments.  Go machine integers appearing in the stdlib models
(`uint64` in `time.ParseDuration`) are modelled as `Nat` with the source's
explicit overflow comparisons against `2^63` kept as written.
-/

namespace Plex

/-- Model of a Go `error` value: the message together with whether the
error wraps the sentinel `autoscan.ErrFatal` (observable in Go via
`errors.Is(err, autoscan.ErrFatal)`).  The sentinel itself lives in the
`autoscan` package; `plex.go` attaches it with `fmt.Errorf("...: %w",
autoscan.ErrFatal)`. -/
structure goError where
  msg : String
  wrapsFatal : Bool
deriving DecidableEq

/-- The `library` record used by `plex.go` (`l.Name`, `l.ID`, `l.Path`):
a remote collection rooted at storage path `Path`. -/
structure library where
  Name : String
  ID : String
  Path : String
deriving DecidableEq

/-- Go `strings.HasPrefix(s, pre)`: `pre` is a literal leading substring
of `s`.  Byte-level in Go; for UTF-8 strings the byte-prefix and
character-prefix relations coincide. -/
def goHasPrefix (s pre : String) : Bool :=
  pre.data.isPrefixOf s.data

/-- `target.getScanLibrary` (`plex.go` lines 160-174): collect every
catalog library whose `Path` is a prefix of `folder`; an empty collection
is reported as an error value. -/
def getScanLibrary (libraries : List library) (folder : String) :
    Except goError (List library) :=
  let libs := libraries.filter (fun l => goHasPrefix folder l.Path)
  if libs.length = 0 then
    Except.error ⟨folder ++ ": failed determining libraries", false⟩
  else
    Except.ok libs

/-- One remote scan-trigger call `t.api.Scan(scanFolder, lib.ID)` as
observed on the wire: the path sent and the library id addressed. -/
structure ScanCall where
  path : String
  libraryID : String
deriving DecidableEq

/-- The dispatch loop of `target.Scan` (`plex.go` lines 142-157): walk the
resolved libraries in order, invoke the scan trigger for each, and stop at
the first error.  Returns the list of calls actually issued together with
`none` on success or the first error. -/
def sendScans (apiScan : String → String → Option goError)
    (scanFolder : String) : List library → List ScanCall × Option goError
  | [] => ([], none)
  | lib :: rest =>
    match apiScan scanFolder lib.ID with
    | some e => ([⟨scanFolder, lib.ID⟩], some e)
    | none =>
      let r := sendScans apiScan scanFolder rest
      (⟨scanFolder, lib.ID⟩ :: r.1, r.2)

/-- `target.Scan` (`plex.go` lines 128-158): rewrite the event folder,
resolve libraries, return success without any remote call when resolution
finds none, otherwise run the dispatch loop.  `apiScan` is the remote
scan-trigger collaborator; the trace of issued calls is returned alongside
the result. -/
def targetScan (libraries : List library) (rewrite : String → String)
    (apiScan : String → String → Option goError) (folder : String) :
    List ScanCall × Option goError :=
  let scanFolder := rewrite folder
  match getScanLibrary libraries scanFolder with
  | Except.error _ => ([], none)
  | Except.ok libs => sendScans apiScan scanFolder libs

/-- Go `unicode.IsSpace` (the White_Space property), used by
`strings.TrimSpace`. -/
def goIsSpace (c : Char) : Bool :=
  decide (c.toNat = 9 ∨ c.toNat = 10 ∨ c.toNat = 11 ∨ c.toNat = 12 ∨
    c.toNat = 13 ∨ c.toNat = 32 ∨ c.toNat = 0x85 ∨ c.toNat = 0xA0 ∨
    c.toNat = 0x1680 ∨ (0x2000 ≤ c.toNat ∧ c.toNat ≤ 0x200A) ∨
    c.toNat = 0x2028 ∨ c.toNat = 0x2029 ∨ c.toNat = 0x202F ∨
    c.toNat = 0x205F ∨ c.toNat = 0x3000)

/-- Go `strings.TrimSpace`: drop leading and trailing white space. -/
def goTrimSpace (s : String) : String :=
  String.mk (((s.data.dropWhile goIsSpace).reverse.dropWhile goIsSpace).reverse)

/-- Go `strings.TrimPrefix(s, pre)`: remove one leading occurrence of
`pre`, or return `s` unchanged. -/
def goTrimPrefix (s pre : String) : String :=
  if goHasPrefix s pre then String.mk (s.data.drop pre.data.length) else s

/-- The value Go `strconv.Atoi` returns where the call site discards the
error (`major, _ := strconv.Atoi(parts[0])`): an optional sign followed
only by decimal digits yields the signed value, anything else yields `0`.
Go clamps out-of-range values to the `int64` bounds; the clamp is not
modelled because every comparison made with the result (`≥ 2`, `= 1`,
`≥ 20`) gives the same answer for the clamped and the exact value. -/
def goAtoiValue (s : String) : Int :=
  let p :=
    match s.data with
    | '-' :: rest => (true, rest)
    | '+' :: rest => (false, rest)
    | rest => (false, rest)
  if p.2 ≠ [] ∧ p.2.all Char.isDigit then
    let n := p.2.foldl (fun a c => a * 10 + (c.toNat - 48)) 0
    if p.1 then -(n : Int) else (n : Int)
  else 0

/-- Worker for `goSplit`: `acc` holds the characters of the current
field, reversed. -/
def goSplitAux (sep : Char) (acc : List Char) : List Char → List String
  | [] => [String.mk acc.reverse]
  | c :: rest =>
    if c = sep then String.mk acc.reverse :: goSplitAux sep [] rest
    else goSplitAux sep (c :: acc) rest

/-- Go `strings.Split(s, sep)` for a one-character separator: the fields
around every occurrence of `sep`; the empty string yields `[""]`. -/
def goSplit (s : String) (sep : Char) : List String :=
  goSplitAux sep [] s.data

/-- `isSupportedVersion` (`plex.go` lines 176-190): split on `"."`, fewer
than two components is unsupported; parse the first two components with
`strconv.Atoi` discarding errors; accept when `major ≥ 2` or
`major = 1 ∧ minor ≥ 20`. -/
def isSupportedVersion (version : String) : Bool :=
  let parts := goSplit version '.'
  if parts.length < 2 then false
  else
    let major := goAtoiValue (parts.getD 0 "")
    let minor := goAtoiValue (parts.getD 1 "")
    decide (2 ≤ major ∨ (major = 1 ∧ 20 ≤ minor))

/-- Nanoseconds per unit: the `unitMap` of Go `time.ParseDuration`
(`"µs"` is U+00B5, `"μs"` is U+03BC). -/
def unitMap : String → Option Nat
  | "ns" => some 1
  | "us" => some 1000
  | "µs" => some 1000
  | "μs" => some 1000
  | "ms" => some 1000000
  | "s" => some 1000000000
  | "m" => some 60000000000
  | "h" => some 3600000000000
  | _ => none

/-- Go `time.leadingInt`: consume leading decimal digits into a `uint64`
accumulator, failing (`none`) on overflow past `2^63`. -/
def leadingInt (x : Nat) : List Char → Option (Nat × List Char)
  | [] => some (x, [])
  | c :: rest =>
    if c.isDigit then
      if x > 2 ^ 63 / 10 then none
      else
        let y := x * 10 + (c.toNat - 48)
        if y > 2 ^ 63 then none
        else leadingInt y rest
    else some (x, c :: rest)

/-- Go `time.leadingFraction`: consume the digits after the decimal
point, ignoring (but still consuming) digits once the accumulator would
overflow; `scale` is 10 to the number of digits kept.  Go keeps `scale`
as a `float64`; every value reached here is an exact power of ten, kept
as a `Nat`. -/
def leadingFraction (x scale : Nat) (overflow : Bool) :
    List Char → Nat × Nat × List Char
  | [] => (x, scale, [])
  | c :: rest =>
    if c.isDigit then
      if overflow then leadingFraction x scale overflow rest
      else if x > (2 ^ 63 - 1) / 10 then leadingFraction x scale true rest
      else
        let y := x * 10 + (c.toNat - 48)
        if y > 2 ^ 63 then leadingFraction x scale true rest
        else leadingFraction y (scale * 10) false rest
    else (x, scale, c :: rest)

/-- The segment loop of Go `time.ParseDuration`: repeatedly read
`[0-9]*(\.[0-9]*)?unit` and accumulate nanoseconds, with the source's
overflow comparisons against `2^63`.  Go computes the fractional
contribution as `uint64(float64(f) * (float64(unit) / scale))`; it is
modelled as the exact truncated quotient `f * unit / scale`, which agrees
whenever the `float64` products are exact.  `fuel` only bounds the
recursion; each iteration consumes at least the non-empty unit, so
`fuel = length + 1` never runs out. -/
def parseDurationLoop (fuel : Nat) (d : Nat) (s : List Char) : Option Nat :=
  match fuel with
  | 0 => none
  | fuel + 1 =>
    match s with
    | [] => some d
    | c :: _ =>
      if ¬(c = '.' ∨ c.isDigit) then none
      else
        match leadingInt 0 s with
        | none => none
        | some (v, s1) =>
          let pre := decide (s1.length ≠ s.length)
          let fr :=
            match s1 with
            | '.' :: s1t =>
              let q := leadingFraction 0 1 false s1t
              (q.1, q.2.1, q.2.2, decide (q.2.2.length ≠ s1t.length))
            | _ => (0, 1, s1, false)
          if pre = false ∧ fr.2.2.2 = false then none
          else
            let uChars := fr.2.2.1.takeWhile (fun u => ¬(u = '.' ∨ u.isDigit))
            let s2 := fr.2.2.1.drop uChars.length
            if uChars = [] then none
            else
              match unitMap (String.mk uChars) with
              | none => none
              | some unit =>
                if v > 2 ^ 63 / unit then none
                else
                  let v1 := v * unit
                  let v2 := if fr.1 > 0 then v1 + fr.1 * unit / fr.2.1 else v1
                  if fr.1 > 0 ∧ v2 > 2 ^ 63 then none
                  else
                    let d1 := d + v2
                    if d1 > 2 ^ 63 then none
                    else parseDurationLoop fuel d1 s2

/-- Go `time.ParseDuration`, returning the duration in nanoseconds
(`none` is a parse error): optional sign, the special case `"0"`, then
the segment loop, then the final range checks of the source. -/
def ParseDuration (s : String) : Option Int :=
  let p :=
    match s.data with
    | '-' :: rest => (true, rest)
    | '+' :: rest => (false, rest)
    | rest => (false, rest)
  if p.2 = ['0'] then some 0
  else if p.2 = [] then none
  else
    match parseDurationLoop (p.2.length + 1) 0 p.2 with
    | none => none
    | some d =>
      if p.1 then some (-(d : Int))
      else if d > 2 ^ 63 - 1 then none
      else some (d : Int)

/-- `parseTimeout` (`plex.go` lines 92-107): blank (after trimming)
means no timeout and no error; otherwise the string must parse as a
duration and the duration must be strictly positive. -/
def parseTimeout (raw : String) : Except goError Int :=
  if goTrimSpace raw = "" then Except.ok 0
  else
    match ParseDuration raw with
    | none =>
      Except.error ⟨"invalid plex timeout " ++ raw ++ ": parse error", false⟩
    | some timeout =>
      if timeout ≤ 0 then
        Except.error
          ⟨"invalid plex timeout " ++ raw ++ ": must be greater than zero", false⟩
      else Except.ok timeout

/-- ASCII control bytes, which Go `net/url.Parse` rejects anywhere in the
URL (`stringContainsCTLByte`). -/
def isCTL (c : Char) : Bool :=
  decide (c.toNat < 0x20 ∨ c.toNat = 0x7f)

/-- Go `net/url.getScheme`: scan for `scheme:`; returns
`(scheme, remainder)` where an empty scheme means the input had none (the
remainder is then the whole input), and `none` is the
"missing protocol scheme" error (a leading `:`).  `orig` is the full
input, `acc` the scheme characters consumed so far (reversed). -/
def getSchemeAux (orig : List Char) (acc : List Char) :
    List Char → Option (List Char × List Char)
  | [] => some ([], orig)
  | c :: rest =>
    if c.isAlpha then getSchemeAux orig (c :: acc) rest
    else if c.isDigit ∨ c = '+' ∨ c = '-' ∨ c = '.' then
      if acc = [] then some ([], orig) else getSchemeAux orig (c :: acc) rest
    else if c = ':' then
      if acc = [] then none else some (acc.reverse, rest)
    else some ([], orig)

/-- Go `net/url.ishex`: an ASCII hexadecimal digit. -/
def isHexDig (c : Char) : Bool :=
  c.isDigit || (Char.ofNat 97 ≤ c && c ≤ Char.ofNat 102) ||
    (Char.ofNat 65 ≤ c && c ≤ Char.ofNat 70)

/-- Percent-escape well-formedness: every `%` is followed by two hex
digits.  This is all Go `net/url.unescape` checks for the path, fragment
and userinfo encodings. -/
def validEscapes : List Char → Bool
  | [] => true
  | '%' :: a :: b :: rest => isHexDig a && isHexDig b && validEscapes rest
  | '%' :: _ => false
  | _ :: rest => validEscapes rest

/-- Numeric value of a hex digit (callers guarantee `Char.isHexDigit`). -/
def hexVal (c : Char) : Nat :=
  if c.isDigit then c.toNat - 48
  else if c.toNat ≥ 97 then c.toNat - 87
  else c.toNat - 55

/-- The ASCII characters Go `net/url.shouldEscape` lets appear raw in a
host: alphanumerics, `-._~`, the sub-delims and `:[]<>"`. -/
def hostAllowedChar (c : Char) : Bool :=
  c.isAlphanum || c = '-' || c = '_' || c = '.' || c = '~' ||
  c = '!' || c = '$' || c = '&' || c = Char.ofNat 39 || c = '(' ||
  c = ')' || c = '*' || c = '+' || c = ',' || c = ';' || c = '=' ||
  c = ':' || c = '[' || c = ']' || c = '<' || c = '>' || c = '"'

/-- Go `net/url.unescape` in `encodeHost` mode: a raw ASCII character
outside `hostAllowedChar` is an invalid host character; `%XX` must be two
hex digits and, in the host, may only encode a byte ≥ `0x80` or be `%25`.
Decoded escape bytes are kept as single characters (multi-byte UTF-8
reassembly of escaped non-ASCII is not modelled, nor is the special
`encodeZone` mode for an IPv6 zone after `%25`). -/
def hostUnescapeAux : List Char → Option (List Char)
  | [] => some []
  | '%' :: a :: b :: rest =>
    if isHexDig a ∧ isHexDig b then
      if hexVal a < 8 ∧ ¬(a = '2' ∧ b = '5') then none
      else
        match hostUnescapeAux rest with
        | none => none
        | some out => some (Char.ofNat (hexVal a * 16 + hexVal b) :: out)
    else none
  | '%' :: _ => none
  | c :: rest =>
    if c.toNat < 0x80 ∧ hostAllowedChar c = false then none
    else
      match hostUnescapeAux rest with
      | none => none
      | some out => some (c :: out)

/-- `unescape(host, encodeHost)` as a `String`. -/
def hostUnescape (host : List Char) : Option String :=
  match hostUnescapeAux host with
  | none => none
  | some out => some (String.mk out)

/-- Go `net/url.validOptionalPort`: empty, or `:` followed by decimal
digits only. -/
def validOptionalPort (port : List Char) : Bool :=
  match port with
  | [] => true
  | c :: rest => c = ':' && rest.all Char.isDigit

/-- Index of the last occurrence of `c` in `s`, Go
`strings.LastIndex`. -/
def lastIdxOf (s : List Char) (c : Char) : Option Nat :=
  match s.reverse.findIdx? (fun x => x = c) with
  | none => none
  | some j => some (s.length - 1 - j)

/-- Go `net/url.parseHost`: bracketed IPv6 forms need a closing `]` and a
valid optional port after it; otherwise everything from the last `:` on
must be a valid optional port; then the host is unescaped with the host
encoding. -/
def parseHost (host : List Char) : Option String :=
  if host.head? = some '[' then
    match lastIdxOf host ']' with
    | none => none
    | some i =>
      if validOptionalPort (host.drop (i + 1)) then hostUnescape host else none
  else
    match lastIdxOf host ':' with
    | none => hostUnescape host
    | some i =>
      if validOptionalPort (host.drop i) then hostUnescape host else none

/-- Go `net/url.validUserinfo`: the characters RFC 3986 admits in the
userinfo subcomponent. -/
def validUserinfo (s : List Char) : Bool :=
  s.all (fun c =>
    c.isAlphanum || c = '-' || c = '.' || c = '_' || c = ':' || c = '~' ||
    c = '!' || c = '$' || c = '&' || c = Char.ofNat 39 || c = '(' ||
    c = ')' || c = '*' || c = '+' || c = ',' || c = ';' || c = '=' ||
    c = '%' || c = '@')

/-- Go `net/url.parseAuthority`: the host is everything after the last
`@`; the userinfo before it must pass `validUserinfo` and unescape
cleanly. -/
def parseAuthority (authority : List Char) : Option String :=
  match lastIdxOf authority '@' with
  | none => parseHost authority
  | some i =>
    match parseHost (authority.drop (i + 1)) with
    | none => none
    | some host =>
      let userinfo := authority.take i
      if validUserinfo userinfo ∧ validEscapes userinfo then some host
      else none

/-- The body of Go `net/url.parse(rawURL, viaRequest:=false)` reduced to
its observable `Host` field (`none` is a parse error): reject control
bytes, the `"*"` special case, scheme splitting, query stripping (with
the trailing-`?` `ForceQuery` case), the rootless-path rules (opaque for
a URL with a scheme, the colon-in-first-segment error without one), the
`//authority` rule guarded against a scheme-less `///`, and the
percent-escape validation `setPath` performs on the remaining path. -/
def parseNoFrag (s : List Char) : Option String :=
  if s.any isCTL then none
  else if s = ['*'] then some ""
  else
    match getSchemeAux s [] s with
    | none => none
    | some (scheme, rest0) =>
      let rest :=
        if rest0.getLast? = some '?' ∧ ¬ rest0.dropLast.contains '?' then
          rest0.dropLast
        else rest0.takeWhile (fun c => c ≠ '?')
      if ¬ rest.head? = some '/' then
        if scheme ≠ [] then some ""
        else if (rest.takeWhile (fun c => c ≠ '/')).contains ':' then none
        else if validEscapes rest then some "" else none
      else
        if (scheme ≠ [] ∨ ¬ goHasPrefix (String.mk rest) "///") ∧
            goHasPrefix (String.mk rest) "//" then
          let afterSlashes := rest.drop 2
          let authority := afterSlashes.takeWhile (fun c => c ≠ '/')
          let rest2 := afterSlashes.drop authority.length
          match parseAuthority authority with
          | none => none
          | some host => if validEscapes rest2 then some host else none
        else if validEscapes rest then some "" else none

/-- Go `net/url.Parse` reduced to its `Host` result: cut the fragment at
the first `#`, run `parseNoFrag`, and validate the fragment's
percent-escapes (`setFragment`) when one is present. -/
def goURLHost (rawURL : String) : Option String :=
  let cs := rawURL.data
  let u := cs.takeWhile (fun c => c ≠ '#')
  let frag := (cs.drop u.length).drop 1
  match parseNoFrag u with
  | none => none
  | some host =>
    if cs.contains '#' ∧ frag ≠ [] then
      if validEscapes frag then some host else none
    else some host

/-- `defaultClientIdentifier` (`plex.go` lines 109-121): parse the URL;
on error or an empty `Host`, the fixed fallback `"autoscan"`; otherwise
`"autoscan-"` plus the host with one leading `"www."` stripped (the bare
host `"www."` also falls back). -/
def defaultClientIdentifier (rawURL : String) : String :=
  match goURLHost rawURL with
  | none => "autoscan"
  | some h =>
    if h = "" then "autoscan"
    else
      let host := goTrimPrefix h "www."
      if host = "" then "autoscan"
      else "autoscan-" ++ host

/-- The configuration consumed by `New` (`plex.go` lines 15-23).  The
rewrite rules are omitted: their evaluation happens in the external
`autoscan.NewRewriter`, which enters `New` below as an oracle result. -/
structure Config where
  URL : String
  Token : String
  Verbosity : String
  Timeout : String
  Product : String
  ClientIdentifier : String

/-- The observable outcome of a successful `New`: the catalog stored in
the target plus the timeout, product and client identifier handed to
`newAPIClient`. -/
structure NewResult where
  url : String
  token : String
  libraries : List library
  timeout : Int
  product : String
  clientIdentifier : String
deriving DecidableEq

/-- `New` (`plex.go` lines 35-90).  External collaborators are oracle
arguments: `rewriterResult` is the outcome of `autoscan.NewRewriter`
(from the `autoscan` package, outside this repository's sources),
`apiVersion` of `api.Version()` and `apiLibraries` of `api.Libraries()`.
The steps in source order: build the rewriter, parse the timeout, default
a blank product to `"autoscan"`, default a blank client identifier via
`defaultClientIdentifier`, query the version, reject an unsupported
version with an error wrapping `autoscan.ErrFatal`, fetch the catalog. -/
def New (c : Config) (rewriterResult : Except goError Unit)
    (apiVersion : Except goError String)
    (apiLibraries : Except goError (List library)) :
    Except goError NewResult :=
  match rewriterResult with
  | Except.error e => Except.error e
  | Except.ok _ =>
    match parseTimeout c.Timeout with
    | Except.error e => Except.error e
    | Except.ok timeout =>
      let product := if goTrimSpace c.Product = "" then "autoscan" else c.Product
      let clientIdentifier :=
        if goTrimSpace c.ClientIdentifier = "" then defaultClientIdentifier c.URL
        else c.ClientIdentifier
      match apiVersion with
      | Except.error e => Except.error e
      | Except.ok version =>
        if isSupportedVersion version = false then
          Except.error ⟨"plex running unsupported version " ++ version, true⟩
        else
          match apiLibraries with
          | Except.error e => Except.error e
          | Except.ok libraries =>
            Except.ok ⟨c.URL, c.Token, libraries, timeout, product, clientIdentifier⟩

/-! Helper lemmas shared by the claim theorems. -/

/-- Membership in the resolver's successful result is exactly the
catalog-membership plus the literal prefix test of the source. -/
theorem mem_getScanLibrary_iff (libraries : List library) (folder : String)
    (l : library) (hmem : l ∈ libraries) :
    (∃ libs, getScanLibrary libraries folder = Except.ok libs ∧ l ∈ libs) ↔
      goHasPrefix folder l.Path = true := by
  constructor
  · rintro ⟨libs, hok, hl⟩
    unfold getScanLibrary at hok
    by_cases h0 : (libraries.filter (fun x => goHasPrefix folder x.Path)).length = 0
    · simp [h0] at hok
    · simp [h0] at hok
      subst hok
      exact (List.mem_filter.mp hl).2
  · intro hpre
    have hl : l ∈ libraries.filter (fun x => goHasPrefix folder x.Path) :=
      List.mem_filter.mpr ⟨hmem, hpre⟩
    have h0 : (libraries.filter (fun x => goHasPrefix folder x.Path)).length ≠ 0 := by
      intro h
      rw [List.length_eq_zero] at h
      rw [h] at hl
      exact absurd hl (List.not_mem_nil l)
    refine ⟨libraries.filter (fun x => goHasPrefix folder x.Path), ?_, hl⟩
    unfold getScanLibrary
    simp [h0]

/-- The empty string is a prefix of every string. -/
theorem goHasPrefix_empty (s : String) : goHasPrefix s "" = true := by
  unfold goHasPrefix
  simp

/-- A string of white space only trims to the empty string. -/
theorem goTrimSpace_eq_empty (s : String)
    (hs : ∀ ch ∈ s.data, goIsSpace ch = true) : goTrimSpace s = "" := by
  unfold goTrimSpace
  have h1 : s.data.dropWhile goIsSpace = [] :=
    List.dropWhile_eq_nil_iff.mpr hs
  rw [h1]
  rfl

/-- When every trigger succeeds, the dispatch loop issues one call per
resolved library, in order, and reports success. -/
theorem sendScans_all_ok (apiScan : String → String → Option goError)
    (scanFolder : String) (libs : List library)
    (h : ∀ x ∈ libs, apiScan scanFolder x.ID = none) :
    sendScans apiScan scanFolder libs =
      ((libs.map (fun x => ⟨scanFolder, x.ID⟩)), none) := by
  induction libs with
  | nil => rfl
  | cons a t ih =>
    have ha := h a (List.mem_cons_self a t)
    unfold sendScans
    rw [ha]
    simp [ih (fun x hx => h x (List.mem_cons_of_mem a hx))]

/-- When the triggers before `l` succeed and `l`'s trigger fails with
`e`, the dispatch loop issues exactly the calls up to and including `l`
and reports `e`; nothing after `l` is attempted. -/
theorem sendScans_first_failure (apiScan : String → String → Option goError)
    (scanFolder : String) (pre : List library) (l : library)
    (post : List library) (e : goError)
    (hpre : ∀ x ∈ pre, apiScan scanFolder x.ID = none)
    (hl : apiScan scanFolder l.ID = some e) :
    sendScans apiScan scanFolder (pre ++ l :: post) =
      ((pre ++ [l]).map (fun x => ⟨scanFolder, x.ID⟩), some e) := by
  induction pre with
  | nil =>
    unfold sendScans
    simp [hl]
  | cons a t ih =>
    have ha := hpre a (List.mem_cons_self a t)
    rw [List.cons_append]
    unfold sendScans
    rw [ha]
    simp [ih (fun x hx => hpre x (List.mem_cons_of_mem a hx))]

/-- The product and client identifier a successful `New` hands to
`newAPIClient`: blank (trimmed) values are replaced by their defaults. -/
theorem New_ok_fields (c : Config) (rw : Except goError Unit)
    (v : Except goError String) (libs : Except goError (List library))
    (r : NewResult) (h : New c rw v libs = Except.ok r) :
    r.product = (if goTrimSpace c.Product = "" then "autoscan" else c.Product) ∧
    r.clientIdentifier =
      (if goTrimSpace c.ClientIdentifier = "" then defaultClientIdentifier c.URL
       else c.ClientIdentifier) := by
  unfold New at h
  cases rw with
  | error e => simp at h
  | ok u =>
    cases hto : parseTimeout c.Timeout with
    | error e => rw [hto] at h; simp at h
    | ok t =>
      rw [hto] at h
      cases v with
      | error e => simp at h
      | ok version =>
        by_cases hv : isSupportedVersion version = false
        · simp [hv] at h
        · simp [hv] at h
          cases libs with
          | error e => simp at h
          | ok ls =>
            simp at h
            rw [← h]
            exact ⟨rfl, rfl⟩

/-! Claim theorems. -/

/-- C1: for every folder `F` and library `L` of the catalog, the resolver
includes `L` in the result of resolving `F` iff `F` starts with `L.Path`
as a literal raw string prefix — no path-boundary or separator
awareness. -/
theorem resolver_literal_prefix_match (libraries : List library) (folder : String)
    (l : library) (hmem : l ∈ libraries) :
    (∃ libs, getScanLibrary libraries folder = Except.ok libs ∧ l ∈ libs) ↔
      goHasPrefix folder l.Path = true :=
  mem_getScanLibrary_iff libraries folder l hmem

/-- Witness for C1, at the preserved quirk of the spec: a library rooted
at `/media/Mov` matches the folder `/media/Movies2/x`. -/
theorem resolver_literal_prefix_match_witness :
    ∃ libs, getScanLibrary [⟨"Movies", "1", "/media/Mov"⟩] "/media/Movies2/x" =
      Except.ok libs ∧ (⟨"Movies", "1", "/media/Mov"⟩ : library) ∈ libs :=
  (resolver_literal_prefix_match [⟨"Movies", "1", "/media/Mov"⟩] "/media/Movies2/x"
    ⟨"Movies", "1", "/media/Mov"⟩ (by decide)).mpr (by decide)

/-- C8 counterexample: the claim states the test with the folder as the
prefix of the library path.  With a library rooted at `/media`, the
folder `/media/movies` resolves to it although that folder is not a
string prefix of the library path `/media`. -/
theorem resolver_direction_counterexample :
    (∃ libs, getScanLibrary [⟨"Movies", "1", "/media"⟩] "/media/movies" =
        Except.ok libs ∧ (⟨"Movies", "1", "/media"⟩ : library) ∈ libs) ∧
      ¬ ("/media/movies".data <+: "/media".data) := by
  constructor
  · exact ⟨[⟨"Movies", "1", "/media"⟩], rfl, by decide⟩
  · decide

/-- C8 amended: for every configured library `L` and folder `F`, `F`
resolves to `L` iff `L.Path` is a literal string prefix of `F` — the
resolver tests the library path against the folder, not the folder
against the library path. -/
theorem resolver_path_prefix_of_folder (libraries : List library)
    (folder : String) (l : library) (hmem : l ∈ libraries) :
    (∃ libs, getScanLibrary libraries folder = Except.ok libs ∧ l ∈ libs) ↔
      l.Path.data <+: folder.data := by
  rw [mem_getScanLibrary_iff libraries folder l hmem]
  unfold goHasPrefix
  exact List.isPrefixOf_iff_prefix

/-- Witness for the amended C8: `/data/tv` is a prefix of
`/data/tv/Show`, so that folder resolves to the library. -/
theorem resolver_path_prefix_of_folder_witness :
    ∃ libs, getScanLibrary [⟨"TV", "2", "/data/tv"⟩] "/data/tv/Show" =
      Except.ok libs ∧ (⟨"TV", "2", "/data/tv"⟩ : library) ∈ libs :=
  (resolver_path_prefix_of_folder [⟨"TV", "2", "/data/tv"⟩] "/data/tv/Show"
    ⟨"TV", "2", "/data/tv"⟩ (by decide)).mpr (by decide)

/-- C4: a folder whose rewritten path matches zero catalog libraries
(the empty catalog included) makes `Scan` return success with no remote
scan-trigger call issued; the no-match condition never reaches the caller
as an error. -/
theorem scan_no_match_is_successful_noop (libraries : List library)
    (rewrite : String → String) (apiScan : String → String → Option goError)
    (folder : String)
    (h : libraries.filter (fun l => goHasPrefix (rewrite folder) l.Path) = []) :
    targetScan libraries rewrite apiScan folder = ([], none) := by
  unfold targetScan getScanLibrary
  simp [h]

/-- Witness for C4: the empty catalog. -/
theorem scan_no_match_is_successful_noop_witness :
    targetScan [] (fun s => s) (fun _ _ => none) "/data/movies/x" = ([], none) :=
  scan_no_match_is_successful_noop [] (fun s => s) (fun _ _ => none)
    "/data/movies/x" rfl

/-- C10 counterexample: catalog `[(path /x, id 1), (path "", id 2)]`,
folder `/x/y`, and a remote trigger that fails for library id 1: the scan
issues no trigger for the empty-path library id 2, refuting that every
`Scan` call issues a trigger for it. -/
theorem empty_path_library_counterexample :
    (targetScan [⟨"A", "1", "/x"⟩, ⟨"E", "2", ""⟩] (fun s => s)
        (fun _ i => if i = "1" then some ⟨"boom", false⟩ else none) "/x/y").1 =
      [⟨"/x/y", "1"⟩] ∧
    ∀ call ∈ (targetScan [⟨"A", "1", "/x"⟩, ⟨"E", "2", ""⟩] (fun s => s)
        (fun _ i => if i = "1" then some ⟨"boom", false⟩ else none) "/x/y").1,
      call.libraryID ≠ "2" := by
  constructor
  · unfold targetScan getScanLibrary sendScans
    decide
  · unfold targetScan getScanLibrary sendScans
    decide

/-- C10 amended: the code never checks that library paths are non-empty:
an empty-path catalog entry is resolved for every folder, and every
`Scan` call in which no trigger errors issues a trigger for it. -/
theorem empty_path_library_matches_all (libraries : List library)
    (rewrite : String → String) (apiScan : String → String → Option goError)
    (folder : String) (l : library) (hmem : l ∈ libraries)
    (hpath : l.Path = "") :
    (∃ libs, getScanLibrary libraries (rewrite folder) = Except.ok libs ∧
      l ∈ libs) ∧
    ((∀ x ∈ libraries, apiScan (rewrite folder) x.ID = none) →
      (⟨rewrite folder, l.ID⟩ : ScanCall) ∈
        (targetScan libraries rewrite apiScan folder).1) := by
  have hpre : goHasPrefix (rewrite folder) l.Path = true := by
    rw [hpath]
    exact goHasPrefix_empty (rewrite folder)
  have hmain :=
    (mem_getScanLibrary_iff libraries (rewrite folder) l hmem).mpr hpre
  refine ⟨hmain, ?_⟩
  intro hall
  obtain ⟨libs, hok, hl⟩ := hmain
  have hsub : ∀ x ∈ libs, apiScan (rewrite folder) x.ID = none := by
    intro x hx
    have hxmem : x ∈ libraries := by
      unfold getScanLibrary at hok
      by_cases h0 :
          (libraries.filter (fun y => goHasPrefix (rewrite folder) y.Path)).length = 0
      · simp [h0] at hok
      · simp [h0] at hok
        subst hok
        exact (List.mem_filter.mp hx).1
    exact hall x hxmem
  have ht : targetScan libraries rewrite apiScan folder =
      sendScans apiScan (rewrite folder) libs := by
    unfold targetScan
    simp [hok]
  rw [ht, sendScans_all_ok apiScan (rewrite folder) libs hsub]
  exact List.mem_map.mpr ⟨l, hl, rfl⟩

/-- Witness for the amended C10: an empty-path library, a succeeding
trigger, and the folder `/anything`. -/
theorem empty_path_library_matches_all_witness :
    (∃ libs, getScanLibrary [⟨"E", "9", ""⟩] ((fun s => s) "/anything") =
      Except.ok libs ∧ (⟨"E", "9", ""⟩ : library) ∈ libs) ∧
    (⟨"/anything", "9"⟩ : ScanCall) ∈
      (targetScan [⟨"E", "9", ""⟩] (fun s => s) (fun _ _ => none) "/anything").1 := by
  have h := empty_path_library_matches_all [⟨"E", "9", ""⟩] (fun s => s)
    (fun _ _ => none) "/anything" ⟨"E", "9", ""⟩ (by decide) rfl
  exact ⟨h.1, h.2 (fun x _ => rfl)⟩

/-- C2: with resolved libraries `libs` for the rewritten folder, `Scan`
issues the scan triggers strictly in catalog order; when every trigger
succeeds, it issues exactly one call per resolved library and returns
success, and when the first failing library is `l` (after the successful
run `pre`), it issues exactly the calls through `l`, returns that very
error, and never reaches the remaining libraries. -/
theorem scan_dispatch_order_and_first_failure (libraries : List library)
    (rewrite : String → String) (apiScan : String → String → Option goError)
    (folder : String) (libs : List library)
    (hres : getScanLibrary libraries (rewrite folder) = Except.ok libs) :
    ((∀ x ∈ libs, apiScan (rewrite folder) x.ID = none) →
      targetScan libraries rewrite apiScan folder =
        (libs.map (fun x => ⟨rewrite folder, x.ID⟩), none)) ∧
    (∀ pre l post e, libs = pre ++ l :: post →
      (∀ x ∈ pre, apiScan (rewrite folder) x.ID = none) →
      apiScan (rewrite folder) l.ID = some e →
      targetScan libraries rewrite apiScan folder =
        ((pre ++ [l]).map (fun x => ⟨rewrite folder, x.ID⟩), some e)) := by
  have ht : targetScan libraries rewrite apiScan folder =
      sendScans apiScan (rewrite folder) libs := by
    unfold targetScan
    simp [hres]
  constructor
  · intro hall
    rw [ht]
    exact sendScans_all_ok apiScan (rewrite folder) libs hall
  · intro pre l post e hsplit hpre hl
    rw [ht, hsplit]
    exact sendScans_first_failure apiScan (rewrite folder) pre l post e hpre hl

/-- Witness for C2: three libraries of which two match, the trigger for
the second fails, and the third matching library is never attempted. -/
theorem scan_dispatch_order_and_first_failure_witness :
    targetScan [⟨"A", "1", "/d"⟩, ⟨"B", "2", "/d"⟩, ⟨"C", "3", "/d"⟩]
        (fun s => s)
        (fun _ i => if i = "2" then some ⟨"boom", false⟩ else none) "/d/m" =
      ([⟨"/d/m", "1"⟩, ⟨"/d/m", "2"⟩], some ⟨"boom", false⟩) := by
  have h := (scan_dispatch_order_and_first_failure
      [⟨"A", "1", "/d"⟩, ⟨"B", "2", "/d"⟩, ⟨"C", "3", "/d"⟩] (fun s => s)
      (fun _ i => if i = "2" then some ⟨"boom", false⟩ else none) "/d/m"
      [⟨"A", "1", "/d"⟩, ⟨"B", "2", "/d"⟩, ⟨"C", "3", "/d"⟩] rfl).2
      [⟨"A", "1", "/d"⟩] ⟨"B", "2", "/d"⟩ [⟨"C", "3", "/d"⟩] ⟨"boom", false⟩
      rfl (by decide) rfl
  simpa using h

/-- C3: the version gate accepts a version string iff splitting it on
`"."` yields at least two components and, with the first two components
parsed as integers defaulting non-numeric components to `0`, either the
major is at least 2 or the major is 1 and the minor at least 20; the
spec's examples `2.0.0` and `1.20.0` pass while `1.19.9`, `1` and
`abc.def` do not. -/
theorem version_gate_characterization :
    (∀ version : String,
      isSupportedVersion version = true ↔
        (2 ≤ (goSplit version '.').length ∧
          (2 ≤ goAtoiValue ((goSplit version '.').getD 0 "") ∨
            (goAtoiValue ((goSplit version '.').getD 0 "") = 1 ∧
              20 ≤ goAtoiValue ((goSplit version '.').getD 1 ""))))) ∧
    isSupportedVersion "2.0.0" = true ∧ isSupportedVersion "1.20.0" = true ∧
    isSupportedVersion "1.19.9" = false ∧ isSupportedVersion "1" = false ∧
    isSupportedVersion "abc.def" = false := by
  refine ⟨?_, by decide, by decide, by decide, by decide, by decide⟩
  intro version
  unfold isSupportedVersion
  by_cases h : (goSplit version '.').length < 2
  · simp only [if_pos h]
    constructor
    · intro hfalse
      exact absurd hfalse (by simp)
    · rintro ⟨h2, -⟩
      omega
  · simp only [if_neg h, decide_eq_true_eq]
    constructor
    · intro hp
      exact ⟨by omega, hp⟩
    · rintro ⟨-, hp⟩
      exact hp

/-- Witness for C3: the supported floor at `2.0.0`. -/
theorem version_gate_characterization_witness :
    isSupportedVersion "2.0.0" = true :=
  version_gate_characterization.2.1

/-- C5: when the remote version query succeeds but reports an
unsupported version, `New` returns an error carrying the distinct fatal
non-retryable marker (it wraps `autoscan.ErrFatal`), and no target is
produced; any error `New` returns on this path carries that marker. -/
theorem unsupported_version_fatal (c : Config) (version : String)
    (apiLibraries : Except goError (List library)) (t : Int)
    (hto : parseTimeout c.Timeout = Except.ok t)
    (hver : isSupportedVersion version = false) :
    New c (Except.ok ()) (Except.ok version) apiLibraries =
      Except.error ⟨"plex running unsupported version " ++ version, true⟩ ∧
    ∀ e, New c (Except.ok ()) (Except.ok version) apiLibraries =
      Except.error e → e.wrapsFatal = true := by
  have hmain : New c (Except.ok ()) (Except.ok version) apiLibraries =
      Except.error ⟨"plex running unsupported version " ++ version, true⟩ := by
    unfold New
    rw [hto]
    simp [hver]
  refine ⟨hmain, ?_⟩
  intro e he
  rw [hmain] at he
  cases he
  rfl

/-- Witness for C5: version `1.19.9` with a blank timeout. -/
theorem unsupported_version_fatal_witness :
    New ⟨"http://plex.local:32400", "token", "", "", "", ""⟩ (Except.ok ())
        (Except.ok "1.19.9") (Except.ok []) =
      Except.error ⟨"plex running unsupported version " ++ "1.19.9", true⟩ :=
  (unsupported_version_fatal ⟨"http://plex.local:32400", "token", "", "", "", ""⟩
    "1.19.9" (Except.ok []) 0 rfl (by decide)).1

/-- C6: a timeout string that is empty after trimming yields no timeout
(`0`) and no error; a non-empty one must parse as a strictly positive
duration, anything else is a configuration error; `5s` yields five
seconds while `0s` and `-1s` are errors. -/
theorem timeout_parsing (raw : String) :
    (goTrimSpace raw = "" → parseTimeout raw = Except.ok 0) ∧
    (∀ d, goTrimSpace raw ≠ "" → parseTimeout raw = Except.ok d →
      ParseDuration raw = some d ∧ 0 < d) ∧
    parseTimeout "" = Except.ok 0 ∧
    parseTimeout "5s" = Except.ok 5000000000 ∧
    (∃ e, parseTimeout "0s" = Except.error e) ∧
    (∃ e, parseTimeout "-1s" = Except.error e) := by
  refine ⟨?_, ?_, rfl, rfl, ⟨_, rfl⟩, ⟨_, rfl⟩⟩
  · intro h
    unfold parseTimeout
    rw [if_pos h]
  · intro d hne hok
    unfold parseTimeout at hok
    rw [if_neg hne] at hok
    split at hok
    · cases hok
    · rename_i t hpd
      split at hok
      · cases hok
      · rename_i hle
        cases hok
        exact ⟨hpd, by omega⟩

/-- Witness for C6: the five-second example. -/
theorem timeout_parsing_witness :
    parseTimeout "5s" = Except.ok 5000000000 ∧
    ParseDuration "5s" = some 5000000000 ∧ (0 : Int) < 5000000000 := by
  have h := (timeout_parsing "5s").2.1 5000000000 (by decide) rfl
  exact ⟨rfl, h.1, h.2⟩


/-- C7: a blank configured client identifier makes `New` default it via
`defaultClientIdentifier`, which derives the identifier deterministically
from the URL's host (the Go URL host, port included) with one leading
`www.` label stripped, and uses the fixed fallback `"autoscan"` whenever
the URL does not parse or its host is empty. -/
theorem client_identifier_defaulting :
    (∀ c rw v libs r, goTrimSpace c.ClientIdentifier = "" →
      New c rw v libs = Except.ok r →
      r.clientIdentifier = defaultClientIdentifier c.URL) ∧
    goURLHost "https://www.example.com:32400" = some "www.example.com:32400" ∧
    defaultClientIdentifier "https://www.example.com:32400" =
      "autoscan-example.com:32400" ∧
    (∀ u, goURLHost u = none → defaultClientIdentifier u = "autoscan") ∧
    (∀ u, goURLHost u = some "" → defaultClientIdentifier u = "autoscan") ∧
    defaultClientIdentifier ":foo" = "autoscan" := by
  refine ⟨?_, rfl, rfl, ?_, ?_, rfl⟩
  · intro c rw v libs r hblank hok
    have h := (New_ok_fields c rw v libs r hok).2
    rw [hblank] at h
    simpa using h
  · intro u hu
    unfold defaultClientIdentifier
    rw [hu]
  · intro u hu
    unfold defaultClientIdentifier
    rw [hu]
    rfl

/-- Witness for C7: a blank identifier with the `www.`-stripping URL of
the spec's example. -/
theorem client_identifier_defaulting_witness :
    (⟨"https://www.example.com:32400", "tok", [], 0, "prod",
        "autoscan-example.com:32400"⟩ : NewResult).clientIdentifier =
      defaultClientIdentifier "https://www.example.com:32400" :=
  client_identifier_defaulting.1
    ⟨"https://www.example.com:32400", "tok", "", "", "prod", ""⟩
    (Except.ok ()) (Except.ok "1.30.0") (Except.ok [])
    ⟨"https://www.example.com:32400", "tok", [], 0, "prod",
      "autoscan-example.com:32400"⟩ rfl rfl

/-- C9: configuration strings of white space only behave as empty
strings: a whitespace-only timeout yields no timeout and no error, and
whitespace-only product or client-identifier values trigger the same
defaulting as blank values. -/
theorem whitespace_only_config_like_empty (s : String)
    (hs : ∀ ch ∈ s.data, goIsSpace ch = true) :
    goTrimSpace s = "" ∧
    parseTimeout s = Except.ok 0 ∧
    (∀ c rw v libs r, New c rw v libs = Except.ok r →
      (∀ ch ∈ c.Product.data, goIsSpace ch = true) →
      r.product = "autoscan") ∧
    (∀ c rw v libs r, New c rw v libs = Except.ok r →
      (∀ ch ∈ c.ClientIdentifier.data, goIsSpace ch = true) →
      r.clientIdentifier = defaultClientIdentifier c.URL) := by
  have htrim := goTrimSpace_eq_empty s hs
  refine ⟨htrim, ?_, ?_, ?_⟩
  · unfold parseTimeout
    rw [if_pos htrim]
  · intro c rw v libs r hok hw
    have h := (New_ok_fields c rw v libs r hok).1
    rw [goTrimSpace_eq_empty c.Product hw] at h
    simpa using h
  · intro c rw v libs r hok hw
    have h := (New_ok_fields c rw v libs r hok).2
    rw [goTrimSpace_eq_empty c.ClientIdentifier hw] at h
    simpa using h

/-- Witness for C9: a string of two spaces and a tab, and a `New` call
whose product is whitespace-only. -/
theorem whitespace_only_config_like_empty_witness :
    goTrimSpace "  \t" = "" ∧ parseTimeout "  \t" = Except.ok 0 ∧
    (⟨"u", "t", [], 0, "autoscan", "ci"⟩ : NewResult).product = "autoscan" := by
  have h := whitespace_only_config_like_empty "  \t" (by decide)
  refine ⟨h.1, h.2.1, ?_⟩
  exact h.2.2.1 ⟨"u", "t", "", "", "  \t", "ci"⟩ (Except.ok ())
    (Except.ok "2.0.0") (Except.ok [])
    ⟨"u", "t", [], 0, "autoscan", "ci"⟩ rfl (by decide)


end Plex
